import Mathlib

/-!
# gobfu: the SQL obfuscation-script generator

A shallow embedding of `gobfu.go` and `postgres.go` and the properties of the
generated text.

Modelling conventions.

* A Go `string` is a Lean `String`.  The texts handled here come from YAML
  documents and Go literals, so they are valid UTF-8; on valid UTF-8 Go's
  bytewise `<` coincides with the code-point order, which is the order of
  Lean's `String`.
* A Go `map[string]V` is an association list (`GoMap V`) whose keys are
  pairwise distinct.  A map that is an input of the program (a parsed YAML
  document) is given in the order in which `range` visits it, so quantifying
  over all lists covers every traversal order.
* `fmt.Sprintf` / `fmt.Fprintf` / `fmt.Errorf` are modelled by `Sprintf`, which
  substitutes the operands for the verbs `%s`, `%d` and `%v` from left to
  right; operands are passed already rendered as text.
* A Go result `(string, error)` is a pair `String × Option String`, the
  second component being the error message (`none` for `nil`).
* The outcomes of the operating system and of the YAML and template libraries
  (reading a file, unmarshalling, parsing and executing the template, the
  calls on the output file) are inputs of the functions that use them.
-/

namespace Gobfu

/-! ## Library functions used by the program -/

/-- Verb substitution of `fmt.Sprintf` over the characters of the format:
each `%s`, `%d` or `%v` is replaced by the next operand, every other
character is copied. -/
def sprintfAux : List Char → List String → List Char
  | [], _ => []
  | '%' :: 's' :: rest, a :: args => a.data ++ sprintfAux rest args
  | '%' :: 'd' :: rest, a :: args => a.data ++ sprintfAux rest args
  | '%' :: 'v' :: rest, a :: args => a.data ++ sprintfAux rest args
  | c :: rest, args => c :: sprintfAux rest args

/-- The text `fmt.Sprintf(format, args...)` for the verbs `%s`, `%d`, `%v`. -/
def Sprintf (format : String) (args : List String) : String :=
  ⟨sprintfAux format.data args⟩

/-- The function `strings.Join(elems, sep)`. -/
def Join : List String → String → String
  | [], _ => ""
  | [a], _ => a
  | a :: b :: rest, sep => a ++ sep ++ Join (b :: rest) sep

/-- Scan of `strings.ReplaceAll` for a non-empty pattern `old`: occurrences
are found from left to right without overlap; `skip` counts the characters of
the occurrence just replaced that still have to be passed over. -/
def replaceAllAux (old new : List Char) : Nat → List Char → List Char
  | _, [] => []
  | skip + 1, _ :: rest => replaceAllAux old new skip rest
  | 0, c :: rest =>
    if old.isPrefixOf (c :: rest) then
      new ++ replaceAllAux old new (old.length - 1) rest
    else
      c :: replaceAllAux old new 0 rest

/-- The function `strings.ReplaceAll(s, old, new)` for a non-empty `old`. -/
def ReplaceAll (s old new : String) : String :=
  ⟨replaceAllAux old.data new.data 0 s.data⟩

/-- The function `sort.Strings`: ascending order of Go's `<` on strings. -/
def sortStrings (xs : List String) : List String :=
  List.insertionSort (fun a b => a ≤ b) xs

/-- A Go `map[string]V`, as the list of its entries (keys pairwise distinct). -/
abbrev GoMap (V : Type) := List (String × V)

/-- The keys of a map, in the order `range` visits them. -/
def GoMap.keys {V : Type} (m : GoMap V) : List String :=
  m.map Prod.fst

/-- The Go expression `m[k]` for a map of slices: the stored slice, or the
nil slice when the key is absent. -/
def GoMap.index {V : Type} (m : GoMap (List V)) (k : String) : List V :=
  (m.lookup k).getD []

/-- The Go statement `m[k] = v`. -/
def GoMap.set {V : Type} : GoMap V → String → V → GoMap V
  | [], k, v => [(k, v)]
  | (k0, v0) :: rest, k, v =>
    if k0 = k then (k, v) :: rest else (k0, v0) :: GoMap.set rest k v

/-- Outcome of reading a file and unmarshalling its YAML content. -/
inductive Source (α : Type) where
  | unreadable (err : String)
  | malformed (err : String)
  | parsed (value : α)

/-! ## gobfu.go -/

/-- The struct `Item`. -/
structure Item where
  table : String
  column : String
  sqlType : String
  generator : String
deriving DecidableEq, Repr

/-- The type `SQLFormat`. -/
abbrev SQLFormat := Item → String

/-- The struct `SQLFormatter`. -/
structure SQLFormatter where
  PhoneNumber : SQLFormat
  Email : SQLFormat
  Word : SQLFormat
  Null : SQLFormat
  Address : SQLFormat
  Business : SQLFormat
  Default : SQLFormat

/-- The method `(*SQLFormatter).Format`. -/
def SQLFormatter.Format (f : SQLFormatter) (item : Item) : String :=
  let format : SQLFormat :=
    match item.generator with
    | "phone-numbers" => f.PhoneNumber
    | "email" => f.Email
    | "words" => f.Word
    | "null" => f.Null
    | "addresses-1" => f.Address
    | "businesses" => f.Business
    | _ => f.Default
  format item

/-- The value type of `YAMLMapping`; the field `Type` is written `Type_`,
`Type` being reserved. -/
structure Details where
  Type_ : String
  Source : String
deriving DecidableEq, Repr

/-- The type `YAMLMapping`: table, then column, then details. -/
abbrev YAMLMapping := GoMap (GoMap Details)

/-- The loop of `readItems` over the unmarshalled mapping. -/
def readItems.collect (mapping : YAMLMapping) : List Item :=
  mapping.foldl (fun items tc =>
    tc.2.foldl (fun items cd =>
      let generator := cd.2.Source
      let generator := if generator = "" ∨ generator = "null" then "null" else generator
      items ++ [{ table := tc.1, column := cd.1, sqlType := cd.2.Type_, generator := generator }])
      items) []

/-- The function `readItems`. -/
def readItems (yamlFile : Source YAMLMapping) : Except String (List Item) :=
  match yamlFile with
  | .unreadable err => .error (Sprintf "error reading YAML file: %v" [err])
  | .malformed err => .error (Sprintf "error unmarshaling YAML: %v" [err])
  | .parsed mapping => .ok (readItems.collect mapping)

/-- The map `grouped` of `GenerateUpdates`. -/
def GenerateUpdates.grouped (items : List Item) : GoMap (List Item) :=
  items.foldl (fun grouped item =>
    grouped.set item.table (grouped.index item.table ++ [item])) []

/-- The slice `tables` of `GenerateUpdates` after `sort.Strings`.  The keys
are taken in the order of the entry list; the sorted result is the same for
every traversal order of the map (`sortStrings_congr`). -/
def GenerateUpdates.tables (items : List Item) : List String :=
  sortStrings (GenerateUpdates.grouped items).keys

/-- The call `sort.Slice(group, ...)` with the comparison by column.
`sort.Slice` is not stable; the model is the stable insertion sort, which is
what package `sort` runs on slices of at most 12 elements.  When the columns
of the group are pairwise distinct, as in the loader's output, every sorting
algorithm gives the same result (`sorted_unique`). -/
def GenerateUpdates.sortSlice (group : List Item) : List Item :=
  List.insertionSort (fun a b => a.column ≤ b.column) group

/-- The slice `group` of `GenerateUpdates` for one table, after sorting. -/
def GenerateUpdates.group (items : List Item) (table : String) : List Item :=
  GenerateUpdates.sortSlice ((GenerateUpdates.grouped items).index table)

/-- The statement written to the buffer for one table. -/
def GenerateUpdates.statement (formatter : Item → String) (table : String)
    (group : List Item) : String :=
  let updates := group.map formatter
  Sprintf "update \"%s\" set %s;\n" [table, Join updates ",\n  "]

/-- The part of `GenerateUpdates` after the items are read: grouping, sorting
and writing the statements. -/
def GenerateUpdates.assemble (items : List Item) (formatter : Item → String) : String :=
  (GenerateUpdates.tables items).foldl (fun buffer table =>
    buffer ++ GenerateUpdates.statement formatter table (GenerateUpdates.group items table)) ""

/-- The function `GenerateUpdates`; `cwd` is the outcome of `os.Getwd` and
`yamlFile` the outcome of reading the mapping file. -/
def GenerateUpdates (cwd : Except String String) (config : String)
    (yamlFile : Source YAMLMapping) (formatter : Item → String) : String × Option String :=
  match cwd with
  | .error err => ("", some (Sprintf "error getting current directory: %v" [err]))
  | .ok _ =>
    match readItems yamlFile with
    | .error err => ("", some (Sprintf "error reading mapping file %s: %v" [config, err]))
    | .ok items => (GenerateUpdates.assemble items formatter, none)

/-- The type of the seed data, `map[string][]string`. -/
abbrev SeedData := GoMap (List String)

/-- The function `toYaml`; `yamlData` is the outcome of `yaml.Unmarshal`,
the result is the updated `data` and the returned error. -/
def toYaml (yamlData : Except String SeedData) (data : SeedData) : SeedData × Option String :=
  match yamlData with
  | .error err => (data, some err)
  | .ok yamlData =>
    (yamlData.foldl (fun data kv => data.set kv.1 (data.index kv.1 ++ kv.2)) data, none)

/-- The function `appendFromFile`. -/
def appendFromFile (file : Source SeedData) (data : SeedData) : SeedData × Option String :=
  match file with
  | .unreadable err => (data, some err)
  | .malformed err => toYaml (.error err) data
  | .parsed yamlData => toYaml (.ok yamlData) data

/-- The value `escapedValue` of `GenerateInserts`. -/
def GenerateInserts.escapedValue (value : String) : String :=
  ReplaceAll value "'" "''"

/-- The inner loop of `GenerateInserts` over the values of one kind, from
position `index` on. -/
def GenerateInserts.writeValues (kind : String) :
    Nat → List String → String → String
  | _, [], insertBuffer => insertBuffer
  | index, value :: rest, insertBuffer =>
    GenerateInserts.writeValues kind (index + 1) rest
      (insertBuffer ++
        Sprintf "insert into gobfuscator_anon_data (idx, kind, value) values (%d, '%s', '%s');\n"
          [toString index, kind, GenerateInserts.escapedValue value])

/-- The loop of `GenerateInserts` over `allData`; `entries` are the entries of
the map in the order `range` visits them. -/
def GenerateInserts.write (entries : List (String × List String)) : String :=
  entries.foldl (fun insertBuffer kv =>
    GenerateInserts.writeValues kv.1 0 kv.2 insertBuffer) ""

/-- The function `GenerateInserts`; `defaultData` is the outcome of
unmarshalling the embedded default data, `file` the outcome of reading the
custom file, and `visit` the order in which `range` visits `allData`. -/
def GenerateInserts (defaultData : Except String SeedData) (custom : String)
    (file : Source SeedData) (visit : SeedData → List (String × List String)) :
    String × Option String :=
  match toYaml defaultData [] with
  | (_, some err) =>
    ("", some (Sprintf "error reading embedded default YAML data: %v" [err]))
  | (allData, none) =>
    if custom ≠ "" then
      match appendFromFile file allData with
      | (_, some err) =>
        ("", some (Sprintf "error reading custom YAML file %s: %v" [custom, err]))
      | (allData, none) => (GenerateInserts.write (visit allData), none)
    else
      (GenerateInserts.write (visit allData), none)

/-! ## postgres.go -/

/-- The function `cast`. -/
def cast (sqlType : String) : String :=
  match sqlType with
  | "jsonb" => "::jsonb"
  | "date" => "::date"
  | _ => ""

/-- The variable `Postgres`. -/
def Postgres : SQLFormatter where
  PhoneNumber := fun item =>
    Sprintf "%s = lpad(\"%s\".id::text || \"%s\".id::text, 15, '0')"
      [item.column, item.table, item.table]
  Email := fun item =>
    Sprintf "%s = \"%s\".id::text || '@example.com'" [item.column, item.table]
  Word := fun item =>
    Sprintf "%s = ''" [item.column]
  Null := fun item =>
    Sprintf "%s = NULL" [item.column]
  Address := fun item =>
    Sprintf ("%s = \"%s\".id::text || ' ' || (select value from gobfuscator_anon_data " ++
      "where kind = '%s' " ++
      "and idx = mod(\"%s\".id, (select total from gobfuscater.gobfuscater_data_census where kind = '%s')) " ++
      "limit 1)%s")
      [item.column, item.table, item.generator, item.table, item.generator, cast item.sqlType]
  Business := fun item =>
    Sprintf ("%s = (select value " ++
      "from gobfuscator_anon_data " ++
      "where kind = '%s' " ++
      "and idx = mod(\"%s\".id, (select total from gobfuscater.gobfuscater_data_census where kind = '%s')) " ++
      "limit 1)%s || ' ' || \"%s\".id::text")
      [item.column, item.generator, item.table, item.generator, cast item.sqlType, item.table]
  Default := fun item =>
    Sprintf ("%s = (select value " ++
      "from gobfuscator_anon_data " ++
      "where kind = '%s' " ++
      "and idx = mod(\"%s\".id, (select total from gobfuscater.gobfuscater_data_census where kind = '%s')) " ++
      "limit 1)%s || ' ' || \"%s\".id::text")
      [item.column, item.generator, item.table, item.generator, cast item.sqlType, item.table]

/-- The map `allData` of `GenerateInserts` once the default data `D` and the
custom data `O` have both been loaded by `toYaml`. -/
def GenerateInserts.allData (D O : SeedData) : SeedData :=
  (toYaml (.ok O) (toYaml (.ok D) []).1).1

/-! ## The spec's wording, for comparison with the code -/

/-- The generator a declared source is normalized to, in the spec's words:
empty or `null` gives `null`, anything else passes through. -/
def normalizedGenerator (source : String) : String :=
  if source = "" ∨ source = "null" then "null" else source

/-- The item the spec prescribes for one column entry of a table. -/
def normalizedItem (table : String) (entry : String × Details) : Item :=
  Item.mk table entry.1 entry.2.Type_ (normalizedGenerator entry.2.Source)

/-- The single-quote character. -/
def quote : Char := Char.ofNat 39

/-- The spec's escaping: every single quote doubled, every other character
kept, in order. -/
def doubleQuotes (cs : List Char) : List Char :=
  cs.flatMap (fun c => if c = quote then [quote, quote] else [c])

/-- The insert row the spec prescribes for the value at position `idx` of
the kind `kind`. -/
def insertRow (idx : Nat) (kind value : String) : String :=
  "insert into gobfuscator_anon_data (idx, kind, value) values (" ++ toString idx ++ ", '" ++
    kind ++ "', '" ++ GenerateInserts.escapedValue value ++ "');\n"

/-- The insert rows the spec prescribes for one kind: one per value, each
carrying the zero-based position of its value. -/
def insertRows (kind : String) (values : List String) : List String :=
  values.enum.map (fun nv => insertRow nv.1 kind nv.2)

/-- The distinct table names of the items, ascending. -/
def distinctTables (items : List Item) : List String :=
  sortStrings (items.map Item.table).dedup

/-- The specifications of one table, sorted by column. -/
def specsOfTable (items : List Item) (table : String) : List Item :=
  GenerateUpdates.sortSlice (items.filter (fun item => item.table = table))

/-- The update line of the spec for one table and its specifications. -/
def updateLine (formatter : Item → String) (table : String) (specs : List Item) : String :=
  "update \"" ++ table ++ "\" set " ++ ",\n  ".intercalate (specs.map formatter) ++ ";\n"

/-- The expression of the spec for the `businesses` and `default` kinds. -/
def seedExpression (item : Item) : String :=
  item.column ++ " = (select value from gobfuscator_anon_data where kind = '" ++
    item.generator ++ "' and idx = mod(\"" ++ item.table ++
    "\".id, (select total from gobfuscater.gobfuscater_data_census where kind = '" ++
    item.generator ++ "')) limit 1)" ++ cast item.sqlType ++ " || ' ' || \"" ++
    item.table ++ "\".id::text"

/-- The expression of the spec for the `addresses-1` kind. -/
def addressExpression (item : Item) : String :=
  item.column ++ " = \"" ++ item.table ++
    "\".id::text || ' ' || (select value from gobfuscator_anon_data where kind = '" ++
    item.generator ++ "' and idx = mod(\"" ++ item.table ++
    "\".id, (select total from gobfuscater.gobfuscater_data_census where kind = '" ++
    item.generator ++ "')) limit 1)" ++ cast item.sqlType

/-! ## Template merge and output file -/

/-- A parsed `text/template`: `Execute` gives the text written to the buffer
and the error returned, for the data fields `Inserts` and `Updates`. -/
structure Template where
  Execute : String → String → String × Option String

/-- The function `ApplyTemplate`; `parsed` is the outcome of parsing the
embedded `sqlTemplate`. -/
def ApplyTemplate (parsed : Except String Template) (inserts updates : String) :
    String × Option String :=
  match parsed with
  | .error err => ("", some (Sprintf "error parsing template: %v" [err]))
  | .ok tmpl =>
    match tmpl.Execute inserts updates with
    | (_, some err) => ("", some (Sprintf "error executing template: %v" [err]))
    | (resultBuffer, none) => (resultBuffer, none)

/-- The predicate `unicode.IsSpace`: the characters with the Unicode property
White_Space. -/
def isSpace (c : Char) : Bool :=
  (9 ≤ c.toNat && c.toNat ≤ 13) || c.toNat = 32 || c.toNat = 133 || c.toNat = 160 ||
  c.toNat = 5760 || (8192 ≤ c.toNat && c.toNat ≤ 8202) || c.toNat = 8232 || c.toNat = 8233 ||
  c.toNat = 8239 || c.toNat = 8287 || c.toNat = 12288

/-- The function `strings.TrimSpace`. -/
def TrimSpace (s : String) : String :=
  ⟨((s.data.dropWhile isSpace).reverse.dropWhile isSpace).reverse⟩

/-- The lower-case mapping of one character with an ASCII result: the letters
A to Z, the Kelvin sign and the dotted capital I.  `unicode.ToLower` maps the
other upper-case letters to letters outside ASCII; the model leaves those in
place, so a text is lowered to a given ASCII text by Go exactly when it is so
by the model. -/
def toLowerRune (c : Char) : Char :=
  if 65 ≤ c.toNat ∧ c.toNat ≤ 90 then Char.ofNat (c.toNat + 32)
  else if c.toNat = 8490 then 'k'
  else if c.toNat = 304 then 'i'
  else c

/-- The function `strings.ToLower`, see `toLowerRune`. -/
def ToLower (s : String) : String :=
  ⟨s.data.map toLowerRune⟩

/-- The calls `attemptFile` makes on the terminal and the file system. -/
inductive FileEffect where
  | print (text : String)
  | mkdirAll (path : String)
  | create (path : String)
deriving DecidableEq, Repr

/-- The function `attemptFile`.  `stat` is the error of `os.Stat(path)` (`none`
when the file exists), `input` the result of `reader.ReadString` (the line
with its newline, and the error), `mkdirAll` and `create` the errors of
`os.MkdirAll(filepath.Dir(path), 0755)` and `os.Create(path)`.  The result is
the file handle (the path) or the error, with the calls made in order;
`FileEffect.create` is the call that creates or truncates the file. -/
def attemptFile (path : String) (stat : Option String) (input : String × Option String)
    (mkdirAll create : Option String) : Except String String × List FileEffect :=
  let confirmation : Option String × List FileEffect :=
    match stat with
    | some _ => (none, [])
    | none =>
      let prompt := FileEffect.print (Sprintf "File %s already exists. Overwrite? (y/n): " [path])
      match input with
      | (_, some err) => (some (Sprintf "error reading input: %v" [err]), [prompt])
      | (response, none) =>
        let response := ToLower (TrimSpace response)
        if response ≠ "y" ∧ response ≠ "yes" then
          (some (Sprintf "operation cancelled by user" []), [prompt])
        else
          (none, [prompt])
  match confirmation with
  | (some err, effects) => (.error err, effects)
  | (none, effects) =>
    match mkdirAll with
    | some err =>
      (.error (Sprintf "error creating output directory: %v" [err]),
        effects ++ [FileEffect.mkdirAll path])
    | none =>
      match create with
      | some err =>
        (.error (Sprintf "error creating output file: %v" [err]),
          effects ++ [FileEffect.mkdirAll path, FileEffect.create path])
      | none => (.ok path, effects ++ [FileEffect.mkdirAll path, FileEffect.create path])

/-- The text of the value replaced back: `strings.ReplaceAll(s, "''", "'")`. -/
def unescapedValue (escaped : String) : String :=
  ReplaceAll escaped "''" "'"

/-- The lengths of the maximal runs of single quotes of a text, from left to
right; `run` is the length of the run in progress. -/
def quoteRunsAux : Nat → List Char → List Nat
  | run, [] => if run = 0 then [] else [run]
  | run, c :: rest =>
    if c = quote then quoteRunsAux (run + 1) rest
    else (if run = 0 then [] else [run]) ++ quoteRunsAux 0 rest

/-- The lengths of the maximal runs of single quotes of a text. -/
def quoteRuns (s : String) : List Nat :=
  quoteRunsAux 0 s.data

/-- The seed-selection condition of the spec for the kind `g` and a table. -/
def selectionFormula (g table : String) : String :=
  "where kind = '" ++ g ++ "' and idx = mod(\"" ++ table ++
    "\".id, (select total from gobfuscater.gobfuscater_data_census where kind = '" ++ g ++ "'))"

/-! ## Strings -/

theorem join_cons (a : String) (l : List String) : String.join (a :: l) = a ++ String.join l := by
  apply String.ext; simp

theorem join_append (l1 l2 : List String) : String.join (l1 ++ l2) = String.join l1 ++ String.join l2 := by
  apply String.ext; simp

theorem string_append_empty (a : String) : a ++ "" = a := by
  apply String.ext; simp

theorem string_empty_append (a : String) : "" ++ a = a := by
  apply String.ext; simp

theorem string_append_assoc (a b c : String) : a ++ b ++ c = a ++ (b ++ c) := by
  apply String.ext; simp

/-! ## Escaping and the insert block -/

theorem replaceAllAux_quote (cs : List Char) :
    replaceAllAux [quote] [quote, quote] 0 cs = doubleQuotes cs := by
  induction cs with
  | nil => rfl
  | cons c rest ih =>
    simp only [replaceAllAux, doubleQuotes, List.flatMap_cons]
    by_cases h : c = quote
    · subst h
      simp [List.isPrefixOf, ih, doubleQuotes]
    · have h2 : ¬ quote = c := fun e => h e.symm
      simp [List.isPrefixOf, ih, doubleQuotes, h, h2]

theorem escapedValue_data (v : String) :
    (GenerateInserts.escapedValue v).data = doubleQuotes v.data := by
  show replaceAllAux [quote] [quote, quote] 0 v.data = _
  exact replaceAllAux_quote v.data

theorem doubleQuotes_length (cs : List Char) :
    (doubleQuotes cs).length = cs.length + cs.count quote := by
  induction cs with
  | nil => rfl
  | cons c rest ih =>
    have : doubleQuotes (c :: rest) = (if c = quote then [quote, quote] else [c]) ++ doubleQuotes rest := by
      simp [doubleQuotes]
    rw [this, List.length_append, ih, List.count_cons]
    by_cases h : c = quote
    · subst h; simp; omega
    · have h2 : ¬ quote = c := fun e => h e.symm
      simp [h]; omega

theorem doubleQuotes_of_not_mem (cs : List Char) (h : quote ∉ cs) : doubleQuotes cs = cs := by
  induction cs with
  | nil => rfl
  | cons c rest ih =>
    have hc : ¬ c = quote := fun e => h (by simp [e])
    have hr : quote ∉ rest := fun e => h (by simp [e])
    have : doubleQuotes (c :: rest) = (if c = quote then [quote, quote] else [c]) ++ doubleQuotes rest := by
      simp [doubleQuotes]
    rw [this, ih hr]; simp [hc]

set_option maxRecDepth 100000 in
theorem insertRow_eq (idx : Nat) (kind value : String) :
    Sprintf "insert into gobfuscator_anon_data (idx, kind, value) values (%d, '%s', '%s');\n"
          [toString idx, kind, GenerateInserts.escapedValue value] = insertRow idx kind value := by
  apply String.ext
  simp [Sprintf, sprintfAux, insertRow]

theorem writeValues_eq (kind : String) (values : List String) (index : Nat) (buf : String) :
    GenerateInserts.writeValues kind index values buf =
      buf ++ String.join ((values.enumFrom index).map (fun nv => insertRow nv.1 kind nv.2)) := by
  induction values generalizing index buf with
  | nil => simp [GenerateInserts.writeValues, String.join, string_append_empty]
  | cons v rest ih =>
    simp only [GenerateInserts.writeValues, ih, insertRow_eq, List.enumFrom_cons, List.map_cons,
      join_cons, string_append_assoc]

theorem write_eq_aux (entries : List (String × List String)) (buf : String) :
    entries.foldl (fun insertBuffer kv =>
      GenerateInserts.writeValues kv.1 0 kv.2 insertBuffer) buf
    = buf ++ String.join (entries.map (fun kv =>
        String.join (insertRows kv.1 kv.2))) := by
  induction entries generalizing buf with
  | nil => simp [String.join, string_append_empty]
  | cons kv rest ih =>
    rw [List.foldl_cons, ih, writeValues_eq]
    simp only [List.map_cons, join_cons, string_append_assoc, List.enum, insertRows]

/-! ## Maps -/

theorem lookup_cons_eq {V : Type} (k2 k0 : String) (v0 : V) (rest : GoMap V) :
    List.lookup k2 ((k0, v0) :: rest) = if k2 = k0 then some v0 else List.lookup k2 rest := by
  by_cases h : k2 = k0
  · subst h
    simp [List.lookup]
  · have hb : (k2 == k0) = false := by simpa using h
    simp [List.lookup, hb, h]

theorem lookup_set {V : Type} (m : GoMap V) (k k2 : String) (v : V) :
    (GoMap.set m k v).lookup k2 = if k2 = k then some v else m.lookup k2 := by
  induction m with
  | nil =>
    show List.lookup k2 [(k, v)] = _
    rw [lookup_cons_eq]
  | cons e rest ih =>
    obtain ⟨k0, v0⟩ := e
    by_cases h0 : k0 = k
    · subst h0
      by_cases h : k2 = k0 <;> simp [GoMap.set, lookup_cons_eq, h]
    · by_cases h : k2 = k
      · subst h
        have : ¬ k2 = k0 := fun e => h0 e.symm
        simp [GoMap.set, lookup_cons_eq, h0, this, ih]
      · by_cases h2 : k2 = k0 <;> simp [GoMap.set, lookup_cons_eq, h0, h, h2, ih]

theorem index_set {V : Type} (m : GoMap (List V)) (k k2 : String) (v : List V) :
    GoMap.index (GoMap.set m k v) k2 = if k2 = k then v else GoMap.index m k2 := by
  unfold GoMap.index
  rw [lookup_set]
  split <;> rfl

theorem keys_set {V : Type} (m : GoMap V) (k : String) (v : V) :
    (GoMap.set m k v).keys = if k ∈ m.keys then m.keys else m.keys ++ [k] := by
  induction m with
  | nil => simp [GoMap.set, GoMap.keys]
  | cons e rest ih =>
    obtain ⟨k0, v0⟩ := e
    by_cases h0 : k0 = k
    · subst h0
      simp [GoMap.set, GoMap.keys]
    · have h1 : ¬ k = k0 := fun e => h0 e.symm
      simp only [GoMap.keys] at ih
      simp only [GoMap.set, h0, if_false, GoMap.keys, List.map_cons, ih, List.mem_cons, h1,
        false_or]
      split <;> simp

theorem nodup_keys_set {V : Type} (m : GoMap V) (k : String) (v : V) (h : m.keys.Nodup) :
    (GoMap.set m k v).keys.Nodup := by
  rw [keys_set]
  split
  · exact h
  · rename_i hk
    exact List.nodup_append.mpr ⟨h, List.nodup_singleton k, by simpa using hk⟩

theorem mem_keys_set {V : Type} (m : GoMap V) (k k2 : String) (v : V) :
    k2 ∈ (GoMap.set m k v).keys ↔ k2 = k ∨ k2 ∈ m.keys := by
  rw [keys_set]
  split
  · rename_i hk
    constructor
    · exact Or.inr
    · rintro (rfl | h)
      · exact hk
      · exact h
  · simp [or_comm]

/-- The step shared by the loops of `toYaml` and of the grouping in `GenerateUpdates`. -/
theorem foldl_append_index {V : Type} (ys : List (String × List V)) (data : GoMap (List V))
    (k : String) :
    GoMap.index (ys.foldl (fun data kv => GoMap.set data kv.1 (GoMap.index data kv.1 ++ kv.2)) data) k
      = GoMap.index data k ++ (ys.filter (fun kv => kv.1 = k)).flatMap Prod.snd := by
  induction ys generalizing data with
  | nil => simp
  | cons kv rest ih =>
    rw [List.foldl_cons, ih, index_set]
    by_cases h : kv.1 = k
    · subst h
      simp [List.filter_cons]
    · have h2 : ¬ k = kv.1 := fun e => h e.symm
      simp [List.filter_cons, h, h2]

theorem foldl_append_keys_nodup {V : Type} (ys : List (String × List V)) (data : GoMap (List V))
    (h : data.keys.Nodup) :
    (ys.foldl (fun data kv => GoMap.set data kv.1 (GoMap.index data kv.1 ++ kv.2)) data).keys.Nodup := by
  induction ys generalizing data with
  | nil => simpa using h
  | cons kv rest ih =>
    rw [List.foldl_cons]
    exact ih _ (nodup_keys_set _ _ _ h)

theorem foldl_append_mem_keys {V : Type} (ys : List (String × List V)) (data : GoMap (List V))
    (k : String) :
    k ∈ (ys.foldl (fun data kv => GoMap.set data kv.1 (GoMap.index data kv.1 ++ kv.2)) data).keys
      ↔ k ∈ data.keys ∨ k ∈ ys.map Prod.fst := by
  induction ys generalizing data with
  | nil => simp
  | cons kv rest ih =>
    rw [List.foldl_cons, ih, mem_keys_set]
    simp only [List.map_cons, List.mem_cons]
    tauto

theorem index_eq_filter_of_nodup {V : Type} (ys : GoMap (List V)) (k : String)
    (h : ys.keys.Nodup) :
    (ys.filter (fun kv => kv.1 = k)).flatMap Prod.snd = GoMap.index ys k := by
  induction ys with
  | nil => rfl
  | cons kv rest ih =>
    obtain ⟨k0, v0⟩ := kv
    simp only [GoMap.keys, List.map_cons, List.nodup_cons] at h
    by_cases h0 : k0 = k
    · subst h0
      have hrest : rest.filter (fun kv => decide (kv.1 = k0)) = [] := by
        rw [List.filter_eq_nil_iff]
        intro kv hkv
        have : kv.1 ∈ rest.map Prod.fst := List.mem_map_of_mem _ hkv
        simp only [decide_eq_true_eq]
        intro e
        exact h.1 (e ▸ this)
      simp [List.filter_cons, hrest, GoMap.index, lookup_cons_eq]
    · have h1 : ¬ k = k0 := fun e => h0 e.symm
      have := ih h.2
      simp only [GoMap.index] at this
      simp [List.filter_cons, h0, GoMap.index, lookup_cons_eq, h1, this]

/-! ## Grouping and sorting in `GenerateUpdates` -/

theorem grouped_eq (items : List Item) :
    GenerateUpdates.grouped items =
      (items.map (fun item => (item.table, [item]))).foldl
        (fun data kv => GoMap.set data kv.1 (GoMap.index data kv.1 ++ kv.2)) [] := by
  unfold GenerateUpdates.grouped
  rw [List.foldl_map]

theorem grouped_index (items : List Item) (t : String) :
    GoMap.index (GenerateUpdates.grouped items) t = items.filter (fun item => item.table = t) := by
  rw [grouped_eq, foldl_append_index]
  simp only [GoMap.index, List.lookup, Option.getD_none, List.nil_append]
  induction items with
  | nil => rfl
  | cons item rest ih =>
    by_cases h : item.table = t <;> simp [List.filter_cons, h, ih]

theorem grouped_keys_nodup (items : List Item) : (GenerateUpdates.grouped items).keys.Nodup := by
  rw [grouped_eq]
  exact foldl_append_keys_nodup _ _ (by simp [GoMap.keys])

theorem grouped_mem_keys (items : List Item) (t : String) :
    t ∈ (GenerateUpdates.grouped items).keys ↔ t ∈ items.map Item.table := by
  rw [grouped_eq, foldl_append_mem_keys]
  simp [GoMap.keys, Function.comp_def]

theorem sortStrings_perm (xs : List String) : (sortStrings xs).Perm xs :=
  List.perm_insertionSort _ xs

theorem sortStrings_sorted (xs : List String) : (sortStrings xs).Sorted (fun a b => a ≤ b) :=
  List.sorted_insertionSort _ xs

theorem sortStrings_congr {xs ys : List String} (h : xs.Perm ys) :
    sortStrings xs = sortStrings ys :=
  List.eq_of_perm_of_sorted
    (((sortStrings_perm xs).trans h).trans (sortStrings_perm ys).symm)
    (sortStrings_sorted xs) (sortStrings_sorted ys)

theorem tables_eq (items : List Item) :
    GenerateUpdates.tables items = sortStrings (items.map Item.table).dedup := by
  unfold GenerateUpdates.tables
  apply sortStrings_congr
  rw [List.perm_ext_iff_of_nodup (grouped_keys_nodup items) (List.nodup_dedup _)]
  intro t
  rw [grouped_mem_keys, List.mem_dedup]

theorem sortSlice_perm (group : List Item) : (GenerateUpdates.sortSlice group).Perm group :=
  List.perm_insertionSort _ group

theorem sortSlice_sorted (group : List Item) :
    (GenerateUpdates.sortSlice group).Sorted (fun a b => a.column ≤ b.column) := by
  haveI : IsTotal Item (fun a b => a.column ≤ b.column) := ⟨fun a b => le_total a.column b.column⟩
  haveI : IsTrans Item (fun a b => a.column ≤ b.column) := ⟨fun _ _ _ h1 h2 => le_trans h1 h2⟩
  exact List.sorted_insertionSort _ group

theorem strict_of_sorted_nodup (l : List Item)
    (hs : l.Sorted (fun a b => a.column ≤ b.column)) (hn : (l.map Item.column).Nodup) :
    l.Sorted (fun a b => a.column < b.column) := by
  have hne : l.Pairwise (fun a b => a.column ≠ b.column) := List.pairwise_map.mp hn
  exact (List.Pairwise.and hs hne).imp (fun h => lt_of_le_of_ne h.1 h.2)

/-- Two arrangements of the same items that are both sorted by column agree
when the columns are pairwise distinct: the result of sorting does not depend
on the algorithm. -/
theorem sorted_unique (l1 l2 : List Item) (hp : l1.Perm l2)
    (h1 : l1.Sorted (fun a b => a.column ≤ b.column))
    (h2 : l2.Sorted (fun a b => a.column ≤ b.column))
    (hn : (l1.map Item.column).Nodup) : l1 = l2 := by
  haveI : IsAntisymm Item (fun a b => a.column < b.column) :=
    ⟨fun _ _ h1 h2 => absurd h1 (lt_asymm h2)⟩
  have hn2 : (l2.map Item.column).Nodup := (hp.map Item.column).nodup_iff.mp hn
  exact List.eq_of_perm_of_sorted hp (strict_of_sorted_nodup l1 h1 hn)
    (strict_of_sorted_nodup l2 h2 hn2)

theorem sortSlice_congr (l1 l2 : List Item) (hp : l1.Perm l2)
    (hn : (l1.map Item.column).Nodup) :
    GenerateUpdates.sortSlice l1 = GenerateUpdates.sortSlice l2 :=
  sorted_unique _ _ (((sortSlice_perm l1).trans hp).trans (sortSlice_perm l2).symm)
    (sortSlice_sorted l1) (sortSlice_sorted l2)
    (((sortSlice_perm l1).map Item.column).nodup_iff.mpr hn)

theorem filter_columns_nodup (items : List Item) (t : String)
    (h : (items.map (fun item => (item.table, item.column))).Nodup) :
    ((items.filter (fun item => item.table = t)).map Item.column).Nodup := by
  induction items with
  | nil => simp
  | cons item rest ih =>
    simp only [List.map_cons, List.nodup_cons] at h
    by_cases ht : item.table = t
    · simp only [List.filter_cons, ht, decide_True, if_true, List.map_cons, List.nodup_cons]
      refine ⟨?_, ih h.2⟩
      intro hmem
      obtain ⟨other, ho, hc⟩ := List.mem_map.mp hmem
      have hof := List.mem_filter.mp ho
      apply h.1
      refine List.mem_map.mpr ⟨other, hof.1, ?_⟩
      have hot : other.table = t := by simpa using hof.2
      rw [hot, hc, ht]
    · simp only [List.filter_cons, ht, decide_False]
      exact ih h.2

theorem intercalate_go_eq (sep : String) (l : List String) (acc : String) :
    String.intercalate.go acc sep l = acc ++ String.join (l.map (fun a => sep ++ a)) := by
  induction l generalizing acc with
  | nil => simp [String.intercalate.go, String.join, string_append_empty]
  | cons a rest ih =>
    simp only [String.intercalate.go, ih, List.map_cons, join_cons, string_append_assoc]

theorem Join_cons_eq (sep : String) (a : String) (l : List String) :
    Join (a :: l) sep = a ++ String.join (l.map (fun a => sep ++ a)) := by
  induction l generalizing a with
  | nil => simp [Join, String.join, string_append_empty]
  | cons b rest ih =>
    simp only [Join, ih, List.map_cons, join_cons, string_append_assoc]

theorem Join_eq_intercalate (l : List String) (sep : String) : Join l sep = sep.intercalate l := by
  cases l with
  | nil => rfl
  | cons a rest => rw [Join_cons_eq, String.intercalate, intercalate_go_eq]

set_option maxRecDepth 100000 in
theorem statement_eq (formatter : Item → String) (table : String) (group : List Item) :
    GenerateUpdates.statement formatter table group =
      "update \"" ++ table ++ "\" set " ++ ",\n  ".intercalate (group.map formatter) ++ ";\n" := by
  simp only [GenerateUpdates.statement, Join_eq_intercalate]
  apply String.ext
  simp [Sprintf, sprintfAux]

theorem foldl_buffer {α : Type} (g : α → String) (l : List α) (acc : String) :
    l.foldl (fun buffer x => buffer ++ g x) acc = acc ++ String.join (l.map g) := by
  induction l generalizing acc with
  | nil => simp [String.join, string_append_empty]
  | cons x rest ih => simp only [List.foldl_cons, ih, List.map_cons, join_cons, string_append_assoc]

theorem assemble_eq (items : List Item) (formatter : Item → String) :
    GenerateUpdates.assemble items formatter =
      String.join ((GenerateUpdates.tables items).map (fun table =>
        GenerateUpdates.statement formatter table (GenerateUpdates.group items table))) := by
  unfold GenerateUpdates.assemble
  rw [foldl_buffer, string_empty_append]

theorem group_eq (items : List Item) (t : String) :
    GenerateUpdates.group items t =
      GenerateUpdates.sortSlice (items.filter (fun item => item.table = t)) := by
  unfold GenerateUpdates.group
  rw [grouped_index]

theorem assemble_perm (items1 items2 : List Item) (formatter : Item → String)
    (hp : items1.Perm items2)
    (hn : (items1.map (fun item => (item.table, item.column))).Nodup) :
    GenerateUpdates.assemble items1 formatter = GenerateUpdates.assemble items2 formatter := by
  rw [assemble_eq, assemble_eq, tables_eq, tables_eq]
  have ht : sortStrings (items1.map Item.table).dedup = sortStrings (items2.map Item.table).dedup :=
    sortStrings_congr ((hp.map Item.table).dedup)
  rw [ht]
  congr 1
  apply List.map_congr_left
  intro t _
  rw [group_eq, group_eq]
  rw [sortSlice_congr _ _ (hp.filter _) (filter_columns_nodup items1 t hn)]

theorem filter_or_perm (items : List Item) (p q : Item → Prop) [DecidablePred p] [DecidablePred q]
    (hpq : ∀ item, p item → ¬ q item) :
    (items.filter (fun item => p item) ++ items.filter (fun item => q item)).Perm
      (items.filter (fun item => p item ∨ q item)) := by
  induction items with
  | nil => simp
  | cons item rest ih =>
    by_cases hp : p item
    · have hq : ¬ q item := hpq item hp
      simp only [List.filter_cons, hp, hq, decide_True, decide_False, if_true, true_or,
        List.cons_append]
      exact List.Perm.cons _ ih
    · by_cases hq : q item
      · simp only [List.filter_cons, hp, hq, decide_True, decide_False, if_true, or_true]
        exact (List.perm_middle).trans (List.Perm.cons _ ih)
      · simpa [List.filter_cons, hp, hq] using ih

theorem flatMap_filter_perm (items : List Item) (ts : List String) (hts : ts.Nodup) :
    (ts.flatMap (fun t => items.filter (fun item => item.table = t))).Perm
      (items.filter (fun item => item.table ∈ ts)) := by
  induction ts with
  | nil => simp
  | cons t rest ih =>
    simp only [List.nodup_cons] at hts
    simp only [List.flatMap_cons, List.mem_cons]
    refine ((List.Perm.append_left _ (ih hts.2)).trans ?_)
    exact filter_or_perm items (fun item => item.table = t) (fun item => item.table ∈ rest)
      (fun item h1 h2 => hts.1 (h1 ▸ h2))

theorem groups_partition (items : List Item) :
    ((sortStrings (items.map Item.table).dedup).flatMap (fun t =>
      GenerateUpdates.sortSlice (items.filter (fun item => item.table = t)))).Perm items := by
  have hnd : (sortStrings (items.map Item.table).dedup).Nodup :=
    (sortStrings_perm _).nodup_iff.mpr (List.nodup_dedup _)
  refine (List.Perm.flatMap_left _ (fun t _ => sortSlice_perm _)).trans ?_
  refine (flatMap_filter_perm items _ hnd).trans ?_
  rw [List.filter_eq_self.mpr]
  intro item hitem
  simp only [decide_eq_true_eq]
  rw [(sortStrings_perm _).mem_iff, List.mem_dedup]
  exact List.mem_map_of_mem _ hitem

theorem Format_eq (f : SQLFormatter) (item : Item) :
    f.Format item =
      if item.generator = "phone-numbers" then f.PhoneNumber item
      else if item.generator = "email" then f.Email item
      else if item.generator = "words" then f.Word item
      else if item.generator = "null" then f.Null item
      else if item.generator = "addresses-1" then f.Address item
      else if item.generator = "businesses" then f.Business item
      else f.Default item := by
  unfold SQLFormatter.Format
  split <;> simp_all

theorem cast_eq (t : String) :
    cast t = if t = "jsonb" then "::jsonb" else if t = "date" then "::date" else "" := by
  unfold cast
  split <;> simp_all

/-! ## The loader -/

theorem foldl_append_singleton {α β : Type} (g : α → β) (xs : List α) (acc : List β) :
    xs.foldl (fun items x => items ++ [g x]) acc = acc ++ xs.map g := by
  induction xs generalizing acc with
  | nil => simp
  | cons x xs ih => simp [ih]

theorem collect_eq_aux (mapping : YAMLMapping) (acc : List Item) :
    mapping.foldl (fun items tc =>
      tc.2.foldl (fun items cd =>
        let generator := cd.2.Source
        let generator := if generator = "" ∨ generator = "null" then "null" else generator
        items ++ [{ table := tc.1, column := cd.1, sqlType := cd.2.Type_, generator := generator }])
        items) acc
    = acc ++ mapping.flatMap (fun tc => tc.2.map (normalizedItem tc.1)) := by
  induction mapping generalizing acc with
  | nil => simp
  | cons tc rest ih =>
    simp only [List.foldl_cons, List.flatMap_cons]
    rw [ih]
    have h := foldl_append_singleton (normalizedItem tc.1) tc.2 acc
    simp only [normalizedItem, normalizedGenerator] at h ⊢
    rw [h, List.append_assoc]



theorem collect_eq (mapping : YAMLMapping) :
    readItems.collect mapping = mapping.flatMap (fun tc => tc.2.map (normalizedItem tc.1)) := by
  have h := collect_eq_aux mapping []
  simp only [List.nil_append] at h
  exact h

theorem collect_pairs (mapping : YAMLMapping) :
    (readItems.collect mapping).map (fun item => (item.table, item.column))
      = mapping.flatMap (fun tc => tc.2.keys.map (fun c => (tc.1, c))) := by
  rw [collect_eq]
  induction mapping with
  | nil => rfl
  | cons tc rest ih =>
    simp only [List.flatMap_cons, List.map_append, ih, List.map_map, GoMap.keys]
    rfl

/-- The loader's output has pairwise distinct (table, column) pairs: the
mapping is a map of maps, so its keys are distinct at both levels. -/
theorem collect_distinct (mapping : YAMLMapping) (hk : mapping.keys.Nodup)
    (hc : ∀ tc ∈ mapping, tc.2.keys.Nodup) :
    ((readItems.collect mapping).map (fun item => (item.table, item.column))).Nodup := by
  rw [collect_pairs, List.nodup_flatMap]
  constructor
  · intro tc htc
    exact (hc tc htc).map (fun a b h => (Prod.mk.inj h).2)
  · have hk2 : mapping.Pairwise (fun a b => a.1 ≠ b.1) := List.pairwise_map.mp hk
    refine hk2.imp ?_
    intro a b hab
    intro p hpa hpb
    obtain ⟨_, _, rfl⟩ := List.mem_map.mp hpa
    obtain ⟨_, _, h⟩ := List.mem_map.mp hpb
    exact hab (Prod.mk.inj h).1.symm

/-! ## The Postgres expressions -/

set_option maxRecDepth 100000 in
theorem default_eq (item : Item) : Postgres.Default item = seedExpression item := by
  apply String.ext
  simp [Postgres, Sprintf, sprintfAux, seedExpression]

set_option maxRecDepth 100000 in
theorem business_eq (item : Item) : Postgres.Business item = seedExpression item := by
  apply String.ext
  simp [Postgres, Sprintf, sprintfAux, seedExpression]

set_option maxRecDepth 100000 in
theorem address_eq (item : Item) : Postgres.Address item = addressExpression item := by
  apply String.ext
  simp [Postgres, Sprintf, sprintfAux, addressExpression]

theorem assemble_spec (items : List Item) (formatter : Item → String) :
    GenerateUpdates.assemble items formatter =
      String.join ((distinctTables items).map (fun table =>
        updateLine formatter table (specsOfTable items table))) := by
  rw [assemble_eq, tables_eq]
  simp only [statement_eq, group_eq, distinctTables, updateLine, specsOfTable]

/-! ## The claims -/

/-- Claim C1: for a list of column specifications with pairwise distinct
(table, column) pairs, the text of `GenerateUpdates` is the sequence of the
update statements of the tables `GenerateUpdates.tables`, which are in
strictly ascending order, and the assignments of each statement are those of
`GenerateUpdates.group`, whose columns are in strictly ascending order. -/
theorem C1_update_order (items : List Item) (formatter : Item → String)
    (hdistinct : (items.map (fun item => (item.table, item.column))).Nodup) :
    GenerateUpdates.assemble items formatter =
        String.join ((GenerateUpdates.tables items).map (fun table =>
          "update \"" ++ table ++ "\" set " ++
            ",\n  ".intercalate ((GenerateUpdates.group items table).map formatter) ++ ";\n"))
    ∧ (GenerateUpdates.tables items).Sorted (fun a b => a < b)
    ∧ ∀ table ∈ GenerateUpdates.tables items,
        ((GenerateUpdates.group items table).map Item.column).Sorted (fun a b => a < b) := by
  refine ⟨?_, ?_, ?_⟩
  · rw [assemble_eq]
    simp only [statement_eq]
  · rw [tables_eq]
    exact (sortStrings_sorted _).lt_of_le ((sortStrings_perm _).nodup_iff.mpr (List.nodup_dedup _))
  · intro table _
    rw [group_eq]
    have hn : ((GenerateUpdates.sortSlice (items.filter (fun item => item.table = table))).map
        Item.column).Nodup :=
      ((sortSlice_perm _).map Item.column).nodup_iff.mpr (filter_columns_nodup items table hdistinct)
    have hs := strict_of_sorted_nodup _ (sortSlice_sorted _) hn
    exact List.pairwise_map.mpr hs

/-- Witness of C1: three specifications of two tables, out of order; the
tables come out as accounts, users and the columns of users as address,
email. -/
theorem C1_update_order_witness :
    (([⟨"users", "email", "", "email"⟩, ⟨"accounts", "owner", "", "businesses"⟩,
        ⟨"users", "address", "jsonb", "addresses-1"⟩] : List Item).map
        (fun item => (item.table, item.column))).Nodup
    ∧ (GenerateUpdates.tables [⟨"users", "email", "", "email"⟩,
        ⟨"accounts", "owner", "", "businesses"⟩,
        ⟨"users", "address", "jsonb", "addresses-1"⟩]).Sorted (fun a b => a < b)
    ∧ GenerateUpdates.tables [⟨"users", "email", "", "email"⟩,
        ⟨"accounts", "owner", "", "businesses"⟩,
        ⟨"users", "address", "jsonb", "addresses-1"⟩] = ["accounts", "users"]
    ∧ (GenerateUpdates.group [⟨"users", "email", "", "email"⟩,
        ⟨"accounts", "owner", "", "businesses"⟩,
        ⟨"users", "address", "jsonb", "addresses-1"⟩] "users").map Item.column
        = ["address", "email"] :=
  ⟨by decide, (C1_update_order _ Postgres.Format (by decide)).2.1,
    by simp +decide [GenerateUpdates.tables, GenerateUpdates.grouped, GoMap.set, GoMap.index,
      GoMap.keys, sortStrings, List.lookup],
    by simp +decide [GenerateUpdates.group, GenerateUpdates.sortSlice, GenerateUpdates.grouped,
      GoMap.set, GoMap.index, GoMap.keys, List.lookup]⟩


/-- Claim C2: the update block is the concatenation, over the distinct table
names in ascending order, of the update line of the table, whose expressions
are the formatter's results for the specifications of that table sorted by
column; the specifications of all statements together are a rearrangement of
the input, so each one is formatted once, in one statement.  The single
specification (users, email, "", email) gives the statement of the spec. -/
theorem C2_update_block (items : List Item) (formatter : Item → String) :
    GenerateUpdates.assemble items formatter =
        String.join ((distinctTables items).map (fun table =>
          updateLine formatter table (specsOfTable items table)))
    ∧ (∀ table, (specsOfTable items table).Perm (items.filter (fun item => item.table = table))
        ∧ (specsOfTable items table).Sorted (fun a b => a.column ≤ b.column))
    ∧ ((distinctTables items).flatMap (fun table => specsOfTable items table)).Perm items
    ∧ (distinctTables items).Nodup
    ∧ (∀ cwd config mapping,
        GenerateUpdates (.ok cwd) config (.parsed mapping) formatter =
          (GenerateUpdates.assemble (readItems.collect mapping) formatter, none))
    ∧ GenerateUpdates.assemble [⟨"users", "email", "", "email"⟩] Postgres.Format
        = "update \"users\" set email = \"users\".id::text || '@example.com';\n" := by
  refine ⟨assemble_spec items formatter, ?_, groups_partition items, ?_, ?_, ?_⟩
  · intro table
    exact ⟨sortSlice_perm _, sortSlice_sorted _⟩
  · exact (sortStrings_perm _).nodup_iff.mpr (List.nodup_dedup _)
  · intro cwd config mapping
    rfl
  · simp +decide [GenerateUpdates.assemble, GenerateUpdates.tables, GenerateUpdates.grouped,
      GoMap.set, GoMap.index, GoMap.keys, sortStrings, GenerateUpdates.group,
      GenerateUpdates.sortSlice, GenerateUpdates.statement, List.lookup]

theorem insertRows_getElem (kind : String) (values : List String) (N : Nat) :
    (insertRows kind values)[N]? = (values[N]?).map (fun value => insertRow N kind value) := by
  unfold insertRows
  rw [List.getElem?_map, List.getElem?_enum]
  cases values[N]? <;> rfl

/-- Claim C3: the insert block is, kind after kind in traversal order, the
rows of the kind in the order of its list; the row at position N is the
insert row with idx N, the kind and the escaped N-th value.  The kind words
with the values cat and o'brien gives the two rows of the spec. -/
theorem C3_insert_rows (entries : List (String × List String)) :
    GenerateInserts.write entries =
        String.join (entries.map (fun kv => String.join (insertRows kv.1 kv.2)))
    ∧ (∀ (kind : String) (values : List String) (N : Nat),
        (insertRows kind values)[N]? = (values[N]?).map (fun value =>
          "insert into gobfuscator_anon_data (idx, kind, value) values (" ++ toString N ++
            ", '" ++ kind ++ "', '" ++ GenerateInserts.escapedValue value ++ "');\n"))
    ∧ (∀ (kind : String) (values : List String), (insertRows kind values).length = values.length)
    ∧ GenerateInserts.write [("words", ["cat", "o'brien"])]
        = "insert into gobfuscator_anon_data (idx, kind, value) values (0, 'words', 'cat');\n" ++
          "insert into gobfuscator_anon_data (idx, kind, value) values (1, 'words', 'o''brien');\n" := by
  refine ⟨?_, ?_, ?_, rfl⟩
  · have h := write_eq_aux entries ""
    rw [string_empty_append] at h
    exact h
  · intro kind values N
    exact insertRows_getElem kind values N
  · intro kind values
    simp [insertRows]

/-- Claim C4: the escaped value is the value with every single quote replaced
by two single quotes and every other character kept in place; its length is
the length of the value plus the number of its single quotes, and a value
without a single quote is unchanged. -/
theorem C4_escaped_value (value : String) :
    (GenerateInserts.escapedValue value).data =
        value.data.flatMap (fun c => if c = quote then [quote, quote] else [c])
    ∧ (GenerateInserts.escapedValue value).length = value.length + value.data.count quote
    ∧ (quote ∉ value.data → GenerateInserts.escapedValue value = value)
    ∧ GenerateInserts.escapedValue "o'brien" = "o''brien" := by
  refine ⟨escapedValue_data value, ?_, ?_, rfl⟩
  · show (GenerateInserts.escapedValue value).data.length = value.data.length + _
    rw [escapedValue_data, doubleQuotes_length]
  · intro h
    apply String.ext
    rw [escapedValue_data, doubleQuotes_of_not_mem _ h]

/-- Witness of C4: a value without a single quote is emitted unchanged. -/
theorem C4_escaped_value_witness :
    quote ∉ "cat".data ∧ GenerateInserts.escapedValue "cat" = "cat" :=
  ⟨by decide, (C4_escaped_value "cat").2.2.1 (by decide)⟩


theorem toYaml_ok (yamlData data : SeedData) :
    toYaml (.ok yamlData) data =
      (yamlData.foldl (fun data kv => GoMap.set data kv.1 (GoMap.index data kv.1 ++ kv.2)) data,
        none) := rfl

theorem toYaml_index (yamlData data : SeedData) (k : String) (h : yamlData.keys.Nodup) :
    GoMap.index (toYaml (.ok yamlData) data).1 k = GoMap.index data k ++ GoMap.index yamlData k := by
  rw [toYaml_ok]
  simp only
  rw [foldl_append_index, index_eq_filter_of_nodup _ _ h]

/-- Claim C5: after the default mapping D and then the override mapping O are
loaded into an empty registry, the list under every kind is the list of D
followed by the list of O (a missing kind counting as the empty list); the
kinds of the registry are those of D and of O; both loads succeed, and
`GenerateInserts` writes the rows of this registry when a custom file is
named and of the registry of D alone otherwise. -/
theorem C5_seed_merge (D O : SeedData) (hD : D.keys.Nodup) (hO : O.keys.Nodup) :
    (∀ k, GoMap.index (GenerateInserts.allData D O) k = GoMap.index D k ++ GoMap.index O k)
    ∧ (∀ k, GoMap.index (toYaml (.ok D) []).1 k = GoMap.index D k)
    ∧ (∀ k, k ∈ (GenerateInserts.allData D O).keys ↔ k ∈ D.keys ∨ k ∈ O.keys)
    ∧ (GenerateInserts.allData D O).keys.Nodup
    ∧ (∀ custom visit, custom ≠ "" →
        GenerateInserts (.ok D) custom (.parsed O) visit =
          (GenerateInserts.write (visit (GenerateInserts.allData D O)), none))
    ∧ (∀ file visit,
        GenerateInserts (.ok D) "" file visit =
          (GenerateInserts.write (visit (toYaml (.ok D) []).1), none)) := by
  have h1 : ∀ k, GoMap.index (toYaml (.ok D) []).1 k = GoMap.index D k := by
    intro k
    rw [toYaml_index _ _ _ hD]
    simp [GoMap.index]
  refine ⟨?_, h1, ?_, ?_, ?_, ?_⟩
  · intro k
    unfold GenerateInserts.allData
    rw [toYaml_index _ _ _ hO, h1]
  · intro k
    unfold GenerateInserts.allData
    simp only [toYaml_ok]
    rw [foldl_append_mem_keys, foldl_append_mem_keys]
    simp [GoMap.keys]
  · unfold GenerateInserts.allData
    simp only [toYaml_ok]
    exact foldl_append_keys_nodup _ _ (foldl_append_keys_nodup _ _ (by simp [GoMap.keys]))
  · intro custom visit hc
    simp [GenerateInserts, toYaml_ok, appendFromFile, hc, GenerateInserts.allData]
  · intro file visit
    simp [GenerateInserts, toYaml_ok]

/-- Witness of C5: the kind words is in both mappings, email only in the
default one and cities only in the override. -/
theorem C5_seed_merge_witness :
    (GoMap.keys ([("words", ["cat"]), ("email", ["a@example.com"])] : SeedData)).Nodup
    ∧ (GoMap.keys ([("cities", ["Oslo"]), ("words", ["o'brien", "cat"])] : SeedData)).Nodup
    ∧ (∀ k, GoMap.index (GenerateInserts.allData
          [("words", ["cat"]), ("email", ["a@example.com"])]
          [("cities", ["Oslo"]), ("words", ["o'brien", "cat"])]) k
        = GoMap.index ([("words", ["cat"]), ("email", ["a@example.com"])] : SeedData) k ++
          GoMap.index ([("cities", ["Oslo"]), ("words", ["o'brien", "cat"])] : SeedData) k)
    ∧ GenerateInserts.allData
          [("words", ["cat"]), ("email", ["a@example.com"])]
          [("cities", ["Oslo"]), ("words", ["o'brien", "cat"])]
        = [("words", ["cat", "o'brien", "cat"]), ("email", ["a@example.com"]),
           ("cities", ["Oslo"])] :=
  ⟨by decide, by decide, (C5_seed_merge _ _ (by decide) (by decide)).1, by decide⟩

/-- Claim C6: `Format` dispatches on the exact text of the generator: the six
named generators go to their strategies and every other text, among them the
empty text, "default" and variants in case or surrounding blanks, goes to the
Default strategy; the Postgres formatter returns a text for every item. -/
theorem C6_format_dispatch (f : SQLFormatter) (item : Item) :
    (f.Format item =
      if item.generator = "phone-numbers" then f.PhoneNumber item
      else if item.generator = "email" then f.Email item
      else if item.generator = "words" then f.Word item
      else if item.generator = "null" then f.Null item
      else if item.generator = "addresses-1" then f.Address item
      else if item.generator = "businesses" then f.Business item
      else f.Default item)
    ∧ f.Format { item with generator := "" } = f.Default { item with generator := "" }
    ∧ f.Format { item with generator := "default" } = f.Default { item with generator := "default" }
    ∧ f.Format { item with generator := "Email" } = f.Default { item with generator := "Email" }
    ∧ f.Format { item with generator := " email " } = f.Default { item with generator := " email " }
    ∧ f.Format { item with generator := "NULL" } = f.Default { item with generator := "NULL" }
    ∧ (∃ text, Postgres.Format item = text) :=
  ⟨Format_eq f item, rfl, rfl, rfl, rfl, rfl, ⟨_, rfl⟩⟩

/-- Claim C7: for an item whose generator is none of the six named kinds,
the Postgres formatter returns the seed-selection expression with the item's
generator as the kind literal, which is the text the businesses strategy
returns for the same item. -/
theorem C7_default_expression (item : Item)
    (hkind : item.generator ∉
      ["phone-numbers", "email", "words", "null", "addresses-1", "businesses"]) :
    Postgres.Format item =
        item.column ++ " = (select value from gobfuscator_anon_data where kind = '" ++
          item.generator ++ "' and idx = mod(\"" ++ item.table ++
          "\".id, (select total from gobfuscater.gobfuscater_data_census where kind = '" ++
          item.generator ++ "')) limit 1)" ++ cast item.sqlType ++ " || ' ' || \"" ++
          item.table ++ "\".id::text"
    ∧ Postgres.Format item = Postgres.Business item := by
  simp only [List.mem_cons, List.mem_singleton, List.not_mem_nil, or_false, not_or] at hkind
  obtain ⟨h1, h2, h3, h4, h5, h6⟩ := hkind
  have hd : Postgres.Format item = Postgres.Default item := by
    rw [Format_eq]
    simp [h1, h2, h3, h4, h5, h6]
  refine ⟨?_, ?_⟩
  · rw [hd, default_eq]
    rfl
  · rw [hd, default_eq, business_eq]

/-- Witness of C7: a jsonb column with the unrecognized generator nicknames. -/
theorem C7_default_expression_witness :
    ("nicknames" ∉ ["phone-numbers", "email", "words", "null", "addresses-1", "businesses"])
    ∧ Postgres.Format ⟨"users", "nick", "jsonb", "nicknames"⟩ =
        Postgres.Business ⟨"users", "nick", "jsonb", "nicknames"⟩ :=
  ⟨by decide, (C7_default_expression ⟨"users", "nick", "jsonb", "nicknames"⟩ (by decide)).2⟩

/-- Claim C8: the cast suffix is ::jsonb for the type jsonb, ::date for the
type date and empty for every other type; in the addresses-1, businesses and
default expressions it follows the closing parenthesis of the seed-selection
subquery directly. -/
theorem C8_cast_suffix (sqlType : String) (item : Item) :
    (cast sqlType =
      if sqlType = "jsonb" then "::jsonb" else if sqlType = "date" then "::date" else "")
    ∧ cast "" = "" ∧ cast "JSONB" = "" ∧ cast "Date" = "" ∧ cast "json" = ""
    ∧ Postgres.Address item =
        item.column ++ " = \"" ++ item.table ++
          "\".id::text || ' ' || (select value from gobfuscator_anon_data where kind = '" ++
          item.generator ++ "' and idx = mod(\"" ++ item.table ++
          "\".id, (select total from gobfuscater.gobfuscater_data_census where kind = '" ++
          item.generator ++ "')) limit 1)" ++ cast item.sqlType
    ∧ Postgres.Business item =
        item.column ++ " = (select value from gobfuscator_anon_data where kind = '" ++
          item.generator ++ "' and idx = mod(\"" ++ item.table ++
          "\".id, (select total from gobfuscater.gobfuscater_data_census where kind = '" ++
          item.generator ++ "')) limit 1)" ++ cast item.sqlType ++ " || ' ' || \"" ++
          item.table ++ "\".id::text"
    ∧ Postgres.Default item =
        item.column ++ " = (select value from gobfuscator_anon_data where kind = '" ++
          item.generator ++ "' and idx = mod(\"" ++ item.table ++
          "\".id, (select total from gobfuscater.gobfuscater_data_census where kind = '" ++
          item.generator ++ "')) limit 1)" ++ cast item.sqlType ++ " || ' ' || \"" ++
          item.table ++ "\".id::text" :=
  ⟨cast_eq sqlType, rfl, rfl, rfl, rfl, address_eq item, business_eq item, default_eq item⟩

/-- Claim C9: the loader produces, for every table and every column entry of
it, one item with the table, the column and the type of the entry and with
the generator null when the declared source is empty or null and the declared
source otherwise; no item has an empty generator. -/
theorem C9_normalization (mapping : YAMLMapping) :
    readItems.collect mapping =
        mapping.flatMap (fun tc => tc.2.map (fun entry =>
          Item.mk tc.1 entry.1 entry.2.Type_
            (if entry.2.Source = "" ∨ entry.2.Source = "null" then "null" else entry.2.Source)))
    ∧ (∀ item ∈ readItems.collect mapping, item.generator ≠ "")
    ∧ readItems (.parsed mapping) = .ok (readItems.collect mapping)
    ∧ readItems.collect [("users", [("email", ⟨"text", "email"⟩), ("note", ⟨"", ""⟩),
          ("ssn", ⟨"", "null"⟩), ("nick", ⟨"jsonb", "nicknames"⟩)])]
        = [⟨"users", "email", "text", "email"⟩, ⟨"users", "note", "", "null"⟩,
           ⟨"users", "ssn", "", "null"⟩, ⟨"users", "nick", "jsonb", "nicknames"⟩] := by
  refine ⟨collect_eq mapping, ?_, rfl, by decide⟩
  rw [collect_eq]
  intro item hmem
  simp only [List.mem_flatMap, List.mem_map] at hmem
  obtain ⟨tc, _, cd, _, rfl⟩ := hmem
  simp only [normalizedItem, normalizedGenerator]
  split
  · decide
  · rename_i hne
    intro h0
    exact hne (Or.inl h0)

/-- Claim C10: for a list of column specifications with pairwise distinct
(table, column) pairs, every rearrangement of the list gives the same text
of `GenerateUpdates` with the same formatter. -/
theorem C10_update_determinism (items permuted : List Item) (formatter : Item → String)
    (hperm : items.Perm permuted)
    (hdistinct : (items.map (fun item => (item.table, item.column))).Nodup) :
    GenerateUpdates.assemble items formatter = GenerateUpdates.assemble permuted formatter :=
  assemble_perm items permuted formatter hperm hdistinct

/-- Witness of C10: two specifications of two tables, in both orders. -/
theorem C10_update_determinism_witness :
    ([⟨"users", "email", "", "email"⟩, ⟨"accounts", "owner", "", "businesses"⟩] : List Item).Perm
      [⟨"accounts", "owner", "", "businesses"⟩, ⟨"users", "email", "", "email"⟩]
    ∧ (([⟨"users", "email", "", "email"⟩, ⟨"accounts", "owner", "", "businesses"⟩] : List Item).map
        (fun item => (item.table, item.column))).Nodup
    ∧ GenerateUpdates.assemble
        [⟨"users", "email", "", "email"⟩, ⟨"accounts", "owner", "", "businesses"⟩] Postgres.Format
      = GenerateUpdates.assemble
        [⟨"accounts", "owner", "", "businesses"⟩, ⟨"users", "email", "", "email"⟩] Postgres.Format :=
  ⟨List.Perm.swap _ _ _, by decide,
    C10_update_determinism _ _ Postgres.Format (List.Perm.swap _ _ _) (by decide)⟩


/-! ## The claim on repeated runs -/

theorem generateUpdates_perm (cwd : Except String String) (config : String)
    (mapping1 mapping2 : YAMLMapping) (formatter : Item → String)
    (hperm : (readItems.collect mapping1).Perm (readItems.collect mapping2))
    (hdistinct :
      ((readItems.collect mapping1).map (fun item => (item.table, item.column))).Nodup) :
    GenerateUpdates cwd config (.parsed mapping1) formatter =
      GenerateUpdates cwd config (.parsed mapping2) formatter := by
  cases cwd with
  | error e => rfl
  | ok dir =>
    simp only [GenerateUpdates, readItems]
    rw [assemble_perm _ _ formatter hperm hdistinct]

set_option maxRecDepth 100000 in
/-- Claim C11, the code at the failing input: the default data with the kinds
email and words, no custom file.  `GenerateInserts` ranges over the map
without sorting its keys, so the two traversals of the same map, in the order
of its entries and in the reverse order, give two different insert blocks,
where the claim asks for the same text.  `GenerateUpdates`, which sorts the
keys of its map, gives the same text for the columns of the mapping visited
in two orders. -/
theorem C11_insert_block_depends_on_traversal :
    (∀ m : SeedData, (id m).Perm m) ∧ (∀ m : SeedData, (List.reverse m).Perm m)
    ∧ GenerateInserts (.ok [("email", ["a@example.com"]), ("words", ["cat"])]) ""
        (.unreadable "") id
      = ("insert into gobfuscator_anon_data (idx, kind, value) values (0, 'email', 'a@example.com');\n" ++
         "insert into gobfuscator_anon_data (idx, kind, value) values (0, 'words', 'cat');\n", none)
    ∧ GenerateInserts (.ok [("email", ["a@example.com"]), ("words", ["cat"])]) ""
        (.unreadable "") List.reverse
      = ("insert into gobfuscator_anon_data (idx, kind, value) values (0, 'words', 'cat');\n" ++
         "insert into gobfuscator_anon_data (idx, kind, value) values (0, 'email', 'a@example.com');\n", none)
    ∧ GenerateInserts (.ok [("email", ["a@example.com"]), ("words", ["cat"])]) ""
        (.unreadable "") id
      ≠ GenerateInserts (.ok [("email", ["a@example.com"]), ("words", ["cat"])]) ""
        (.unreadable "") List.reverse
    ∧ GenerateUpdates (.ok "/work") "map.yaml"
        (.parsed [("users", [("email", ⟨"", "email"⟩), ("name", ⟨"", "words"⟩)])]) Postgres.Format
      = GenerateUpdates (.ok "/work") "map.yaml"
        (.parsed [("users", [("name", ⟨"", "words"⟩), ("email", ⟨"", "email"⟩)])])
        Postgres.Format := by
  refine ⟨fun m => List.Perm.refl m, fun m => List.reverse_perm m, rfl, rfl, ?_, ?_⟩
  · decide
  · exact generateUpdates_perm _ _ _ _ _ (List.Perm.swap _ _ _) (by decide)

/-! ## The claims on the expressions -/

set_option maxRecDepth 100000 in
theorem phoneNumber_eq (item : Item) :
    Postgres.PhoneNumber item =
      item.column ++ " = " ++ ("lpad(\"" ++ item.table ++ "\".id::text || \"" ++ item.table ++
        "\".id::text, 15, '0')") := by
  apply String.ext
  simp [Postgres, Sprintf, sprintfAux]

set_option maxRecDepth 100000 in
theorem email_eq (item : Item) :
    Postgres.Email item =
      item.column ++ " = " ++ ("\"" ++ item.table ++ "\".id::text || '@example.com'") := by
  apply String.ext
  simp [Postgres, Sprintf, sprintfAux]

set_option maxRecDepth 100000 in
theorem word_eq (item : Item) : Postgres.Word item = item.column ++ " = " ++ "''" := by
  apply String.ext
  simp [Postgres, Sprintf, sprintfAux]

set_option maxRecDepth 100000 in
theorem null_eq (item : Item) : Postgres.Null item = item.column ++ " = " ++ "NULL" := by
  apply String.ext
  simp [Postgres, Sprintf, sprintfAux]

set_option maxRecDepth 100000 in
theorem address_selection (item : Item) :
    Postgres.Address item =
      item.column ++ " = " ++ ("\"" ++ item.table ++
        "\".id::text || ' ' || (select value from gobfuscator_anon_data " ++
        selectionFormula item.generator item.table ++ " limit 1)" ++ cast item.sqlType) := by
  rw [address_eq]
  apply String.ext
  simp [addressExpression, selectionFormula]

set_option maxRecDepth 100000 in
theorem seed_selection (item : Item) :
    seedExpression item =
      item.column ++ " = " ++ ("(select value from gobfuscator_anon_data " ++
        selectionFormula item.generator item.table ++ " limit 1)" ++ cast item.sqlType ++
        " || ' ' || \"" ++ item.table ++ "\".id::text") := by
  apply String.ext
  simp [seedExpression, selectionFormula]

/-- Claim C12: each of the seven Postgres strategies returns the column name
of the item, then " = ", then an expression; for the kinds without seed data
the fragment is the lpad of the doubled identifier, the identifier joined with
the placeholder domain, the empty text literal and NULL.  The item (users,
email) with the generator email gives the fragment of the spec. -/
theorem C12_fragment_form (item : Item) :
    Postgres.PhoneNumber item =
        item.column ++ " = " ++ ("lpad(\"" ++ item.table ++ "\".id::text || \"" ++ item.table ++
          "\".id::text, 15, '0')")
    ∧ Postgres.Email item =
        item.column ++ " = " ++ ("\"" ++ item.table ++ "\".id::text || '@example.com'")
    ∧ Postgres.Word item = item.column ++ " = " ++ "''"
    ∧ Postgres.Null item = item.column ++ " = " ++ "NULL"
    ∧ (∃ expression, Postgres.Address item = item.column ++ " = " ++ expression)
    ∧ (∃ expression, Postgres.Business item = item.column ++ " = " ++ expression)
    ∧ (∃ expression, Postgres.Default item = item.column ++ " = " ++ expression)
    ∧ (∃ expression, Postgres.Format item = item.column ++ " = " ++ expression)
    ∧ Postgres.Format ⟨"users", "email", "", "email"⟩
        = "email = \"users\".id::text || '@example.com'" := by
  have ha := address_selection item
  have hb : Postgres.Business item = _ := (business_eq item).trans (seed_selection item)
  have hd : Postgres.Default item = _ := (default_eq item).trans (seed_selection item)
  refine ⟨phoneNumber_eq item, email_eq item, word_eq item, null_eq item, ⟨_, ha⟩, ⟨_, hb⟩,
    ⟨_, hd⟩, ?_, rfl⟩
  rw [Format_eq]
  split
  · exact ⟨_, phoneNumber_eq item⟩
  split
  · exact ⟨_, email_eq item⟩
  split
  · exact ⟨_, word_eq item⟩
  split
  · exact ⟨_, null_eq item⟩
  split
  · exact ⟨_, ha⟩
  split
  · exact ⟨_, hb⟩
  · exact ⟨_, hd⟩

set_option maxRecDepth 100000 in
/-- Claim C13: the addresses-1, businesses and default expressions select the
seed value with the condition `selectionFormula`, in which the kind of the
value lookup and the kind of the count lookup are both the generator of the
item and the modulus is the count subquery. -/
theorem C13_selection_formula (item : Item) :
    Postgres.Address item =
        item.column ++ " = " ++ ("\"" ++ item.table ++
          "\".id::text || ' ' || (select value from gobfuscator_anon_data " ++
          ("where kind = '" ++ item.generator ++ "' and idx = mod(\"" ++ item.table ++
            "\".id, (select total from gobfuscater.gobfuscater_data_census where kind = '" ++
            item.generator ++ "'))") ++ " limit 1)" ++ cast item.sqlType)
    ∧ Postgres.Business item =
        item.column ++ " = " ++ ("(select value from gobfuscator_anon_data " ++
          ("where kind = '" ++ item.generator ++ "' and idx = mod(\"" ++ item.table ++
            "\".id, (select total from gobfuscater.gobfuscater_data_census where kind = '" ++
            item.generator ++ "'))") ++ " limit 1)" ++ cast item.sqlType ++
          " || ' ' || \"" ++ item.table ++ "\".id::text")
    ∧ Postgres.Default item = Postgres.Business item
    ∧ Postgres.Format ⟨"users", "street", "", "addresses-1"⟩ =
        "street = \"users\".id::text || ' ' || (select value from gobfuscator_anon_data " ++
        "where kind = 'addresses-1' and idx = mod(\"users\".id, (select total from " ++
        "gobfuscater.gobfuscater_data_census where kind = 'addresses-1')) limit 1)"
    ∧ Postgres.Format ⟨"users", "employer", "", "businesses"⟩ =
        "employer = (select value from gobfuscator_anon_data " ++
        "where kind = 'businesses' and idx = mod(\"users\".id, (select total from " ++
        "gobfuscater.gobfuscater_data_census where kind = 'businesses')) limit 1)" ++
        " || ' ' || \"users\".id::text"
    ∧ Postgres.Format ⟨"users", "nick", "", "nicknames"⟩ =
        "nick = (select value from gobfuscator_anon_data " ++
        "where kind = 'nicknames' and idx = mod(\"users\".id, (select total from " ++
        "gobfuscater.gobfuscater_data_census where kind = 'nicknames')) limit 1)" ++
        " || ' ' || \"users\".id::text" := by
  refine ⟨address_selection item, (business_eq item).trans (seed_selection item), ?_,
    rfl, rfl, rfl⟩
  rw [default_eq, business_eq]

/-- Claim C15: for two items that differ only in the declared type, the
phone-numbers, email, words and null strategies return the same text, and the
addresses-1, businesses and default strategies return the same text when
`cast` gives the same suffix for both types. -/
theorem C15_type_only_through_cast (item : Item) (sqlType2 : String) :
    Postgres.PhoneNumber item = Postgres.PhoneNumber { item with sqlType := sqlType2 }
    ∧ Postgres.Email item = Postgres.Email { item with sqlType := sqlType2 }
    ∧ Postgres.Word item = Postgres.Word { item with sqlType := sqlType2 }
    ∧ Postgres.Null item = Postgres.Null { item with sqlType := sqlType2 }
    ∧ (cast item.sqlType = cast sqlType2 →
        Postgres.Address item = Postgres.Address { item with sqlType := sqlType2 }
        ∧ Postgres.Business item = Postgres.Business { item with sqlType := sqlType2 }
        ∧ Postgres.Default item = Postgres.Default { item with sqlType := sqlType2 }) := by
  refine ⟨rfl, rfl, rfl, rfl, ?_⟩
  intro h
  simp only [address_eq, business_eq, default_eq, addressExpression, seedExpression, h]
  exact ⟨trivial, trivial, trivial⟩

/-- Witness of C15: the types text and varchar both have the empty cast, so
the addresses-1 expression is the same for both. -/
theorem C15_type_only_through_cast_witness :
    cast "text" = cast "varchar"
    ∧ Postgres.Address ⟨"users", "street", "text", "addresses-1"⟩ =
        Postgres.Address ⟨"users", "street", "varchar", "addresses-1"⟩ :=
  ⟨rfl, ((C15_type_only_through_cast ⟨"users", "street", "text", "addresses-1"⟩ "varchar").2.2.2.2
    rfl).1⟩

set_option maxRecDepth 100000 in
/-- Claim C18: the generator, the kind, the table and the column are written
into the text as they are: the generator o'brien gives an expression that
contains `where kind = 'o'brien'` with the quote not doubled, and the insert
row of the kind o'brien carries the kind unchanged between single quotes,
while the quote of the value is doubled. -/
theorem C18_names_not_escaped :
    (∃ item : Item, quote ∈ item.generator.data ∧
      ∃ before after, Postgres.Format item = before ++ "where kind = 'o'brien'" ++ after)
    ∧ Postgres.Format ⟨"users", "nick", "", "o'brien"⟩ =
        "nick = (select value from gobfuscator_anon_data " ++
        "where kind = 'o'brien' and idx = mod(\"users\".id, (select total from " ++
        "gobfuscater.gobfuscater_data_census where kind = 'o'brien')) limit 1)" ++
        " || ' ' || \"users\".id::text"
    ∧ GenerateInserts.write [("o'brien", ["o'brien"])] =
        "insert into gobfuscator_anon_data (idx, kind, value) values (0, 'o'brien', 'o''brien');\n"
    ∧ (∀ (idx : Nat) (kind value : String), insertRow idx kind value =
        "insert into gobfuscator_anon_data (idx, kind, value) values (" ++ toString idx ++
          ", '" ++ kind ++ "', '" ++ GenerateInserts.escapedValue value ++ "');\n")
    ∧ GenerateUpdates.assemble [⟨"o'brien", "it's", "", "null"⟩] Postgres.Format =
        "update \"o'brien\" set it's = NULL;\n" := by
  refine ⟨⟨⟨"users", "nick", "", "o'brien"⟩, by decide,
    "nick = (select value from gobfuscator_anon_data ",
    " and idx = mod(\"users\".id, (select total from " ++
        "gobfuscater.gobfuscater_data_census where kind = 'o'brien')) limit 1)" ++
        " || ' ' || \"users\".id::text", rfl⟩, rfl, rfl, fun _ _ _ => rfl, ?_⟩
  simp +decide [GenerateUpdates.assemble, GenerateUpdates.tables, GenerateUpdates.grouped,
    GoMap.set, GoMap.index, GoMap.keys, sortStrings, GenerateUpdates.group,
    GenerateUpdates.sortSlice, GenerateUpdates.statement, List.lookup]

/-! ## The claims on the output file and on failures -/

theorem attemptFile_cancel (path response : String) (mkdirAll create : Option String)
    (h : ¬ (ToLower (TrimSpace response) = "y" ∨ ToLower (TrimSpace response) = "yes")) :
    attemptFile path none (response, none) mkdirAll create =
      (.error "operation cancelled by user",
        [FileEffect.print (Sprintf "File %s already exists. Overwrite? (y/n): " [path])]) := by
  have h2 : ToLower (TrimSpace response) ≠ "y" ∧ ToLower (TrimSpace response) ≠ "yes" :=
    not_or.mp h
  simp only [attemptFile, h2, ne_eq, not_false_eq_true, and_self, if_true]
  rfl

theorem attemptFile_proceed (path response : String) (mkdirAll create : Option String)
    (h : ToLower (TrimSpace response) = "y" ∨ ToLower (TrimSpace response) = "yes") :
    FileEffect.mkdirAll path ∈ (attemptFile path none (response, none) mkdirAll create).2
    ∧ (mkdirAll = none →
        FileEffect.create path ∈ (attemptFile path none (response, none) mkdirAll create).2)
    ∧ (mkdirAll = none → create = none →
        (attemptFile path none (response, none) mkdirAll create).1 = .ok path) := by
  have h2 : ¬ (ToLower (TrimSpace response) ≠ "y" ∧ ToLower (TrimSpace response) ≠ "yes") := by
    intro hc
    rcases h with h | h
    · exact hc.1 h
    · exact hc.2 h
  cases mkdirAll <;> cases create <;> simp [attemptFile, h2]

/-- Claim C14, amended: when the target file exists, the file is opened
exactly when the response line is read without error and, trimmed and
lowered, is y or yes; `attemptFile` then goes on to create the directory and
the file.  For every other response that is read it returns the error of the
cancellation, and for a response that cannot be read the error of the read,
in both cases after the prompt alone, without the call that truncates the
file.  The responses y, YES and Yes between blanks proceed; the empty
response, n, yeah and ye cancel; y without a line end is a read error. -/
theorem C14_overwrite_confirmation (path : String) (input : String × Option String)
    (mkdirAll create : Option String) :
    ((attemptFile path none input none none).1 = .ok path ↔
      (input.2 = none ∧
        (ToLower (TrimSpace input.1) = "y" ∨ ToLower (TrimSpace input.1) = "yes")))
    ∧ (FileEffect.mkdirAll path ∈ (attemptFile path none input mkdirAll create).2 ↔
      (input.2 = none ∧
        (ToLower (TrimSpace input.1) = "y" ∨ ToLower (TrimSpace input.1) = "yes")))
    ∧ (FileEffect.create path ∈ (attemptFile path none input none create).2 ↔
      (input.2 = none ∧
        (ToLower (TrimSpace input.1) = "y" ∨ ToLower (TrimSpace input.1) = "yes")))
    ∧ (input.2 = none →
        ¬ (ToLower (TrimSpace input.1) = "y" ∨ ToLower (TrimSpace input.1) = "yes") →
        attemptFile path none input mkdirAll create =
          (.error "operation cancelled by user",
            [FileEffect.print (Sprintf "File %s already exists. Overwrite? (y/n): " [path])]))
    ∧ (∀ err : String, input.2 = some err →
        attemptFile path none input mkdirAll create =
          (.error (Sprintf "error reading input: %v" [err]),
            [FileEffect.print (Sprintf "File %s already exists. Overwrite? (y/n): " [path])]))
    ∧ (attemptFile "out.sql" none ("y\n", none) none none).1 = .ok "out.sql"
    ∧ (attemptFile "out.sql" none ("YES\n", none) none none).1 = .ok "out.sql"
    ∧ (attemptFile "out.sql" none ("  Yes \r\n", none) none none).1 = .ok "out.sql"
    ∧ (attemptFile "out.sql" none ("\n", none) none none).1 = .error "operation cancelled by user"
    ∧ (attemptFile "out.sql" none ("n\n", none) none none).1 = .error "operation cancelled by user"
    ∧ (attemptFile "out.sql" none ("yeah\n", none) none none).1
        = .error "operation cancelled by user"
    ∧ (attemptFile "out.sql" none ("ye\n", none) none none).1
        = .error "operation cancelled by user"
    ∧ (attemptFile "out.sql" none ("y", some "EOF") none none).1
        = .error "error reading input: EOF" := by
  obtain ⟨response, readErr⟩ := input
  cases readErr with
  | some err =>
    have hfail : ∀ (m c : Option String), attemptFile path none (response, some err) m c =
        (.error (Sprintf "error reading input: %v" [err]),
          [FileEffect.print (Sprintf "File %s already exists. Overwrite? (y/n): " [path])]) :=
      fun _ _ => rfl
    refine ⟨?_, ?_, ?_, ?_, ?_, rfl, rfl, rfl, rfl, rfl, rfl, rfl, rfl⟩
    · rw [hfail]
      constructor
      · intro h
        cases h
      · intro h
        cases h.1
    · rw [hfail]
      constructor
      · intro h
        simp at h
      · intro h
        cases h.1
    · rw [hfail]
      constructor
      · intro h
        simp at h
      · intro h
        cases h.1
    · intro h
      cases h
    · intro err2 h
      cases h
      exact hfail mkdirAll create
  | none =>
    refine ⟨?_, ?_, ?_, fun _ hc => attemptFile_cancel path response mkdirAll create hc, ?_,
      rfl, rfl, rfl, rfl, rfl, rfl, rfl, rfl⟩
    · constructor
      · intro h
        refine ⟨rfl, ?_⟩
        by_contra hc
        rw [attemptFile_cancel path response none none hc] at h
        cases h
      · intro h
        exact (attemptFile_proceed path response none none h.2).2.2 rfl rfl
    · constructor
      · intro h
        refine ⟨rfl, ?_⟩
        by_contra hc
        rw [attemptFile_cancel path response mkdirAll create hc] at h
        simp at h
      · intro h
        exact (attemptFile_proceed path response mkdirAll create h.2).1
    · constructor
      · intro h
        refine ⟨rfl, ?_⟩
        by_contra hc
        rw [attemptFile_cancel path response none create hc] at h
        simp at h
      · intro h
        exact (attemptFile_proceed path response none create h.2).2.1 rfl
    · intro err h
      cases h

/-- Witness of C14, amended: the response maybe is read and cancels after the
prompt alone. -/
theorem C14_overwrite_confirmation_witness :
    ¬ (ToLower (TrimSpace "maybe\n") = "y" ∨ ToLower (TrimSpace "maybe\n") = "yes")
    ∧ attemptFile "out.sql" none ("maybe\n", none) none none =
        (.error "operation cancelled by user",
          [FileEffect.print "File out.sql already exists. Overwrite? (y/n): "]) :=
  ⟨by decide,
    (C14_overwrite_confirmation "out.sql" ("maybe\n", none) none none).2.2.2.1 rfl (by decide)⟩

/-- Counterexample to C14 as stated: the target file exists and the response
is y, which trimmed and lowered is exactly y, but the input ends before a
line end, so `ReadString` returns the text with an error; `attemptFile`
returns the error of the read and makes no call on the file, so the write
does not proceed. -/
theorem C14_unterminated_response_counterexample :
    ToLower (TrimSpace "y") = "y"
    ∧ attemptFile "out.sql" none ("y", some "EOF") none none =
        (.error "error reading input: EOF",
          [FileEffect.print "File out.sql already exists. Overwrite? (y/n): "])
    ∧ FileEffect.create "out.sql" ∉ (attemptFile "out.sql" none ("y", some "EOF") none none).2
    ∧ (attemptFile "out.sql" none ("y", some "EOF") none none).1 ≠ .ok "out.sql" := by
  refine ⟨by decide, rfl, by decide, ?_⟩
  intro h
  cases h

theorem generateInserts_error (defaultData : Except String SeedData) (custom : String)
    (file : Source SeedData) (visit : SeedData → List (String × List String))
    (h : (GenerateInserts defaultData custom file visit).2 ≠ none) :
    (GenerateInserts defaultData custom file visit).1 = "" := by
  cases defaultData with
  | error e => simp [GenerateInserts, toYaml]
  | ok D =>
    by_cases hc : custom = ""
    · simp [GenerateInserts, toYaml, hc] at h
    · cases file with
      | unreadable e => simp [GenerateInserts, toYaml, hc, appendFromFile]
      | malformed e => simp [GenerateInserts, toYaml, hc, appendFromFile]
      | parsed O => simp [GenerateInserts, toYaml, hc, appendFromFile] at h

theorem generateUpdates_error (cwd : Except String String) (config : String)
    (yamlFile : Source YAMLMapping) (formatter : Item → String)
    (h : (GenerateUpdates cwd config yamlFile formatter).2 ≠ none) :
    (GenerateUpdates cwd config yamlFile formatter).1 = "" := by
  cases cwd with
  | error e => simp [GenerateUpdates]
  | ok dir =>
    cases yamlFile with
    | unreadable e => simp [GenerateUpdates, readItems]
    | malformed e => simp [GenerateUpdates, readItems]
    | parsed mapping => simp [GenerateUpdates, readItems] at h

theorem applyTemplate_error (parsed : Except String Template) (inserts updates : String)
    (h : (ApplyTemplate parsed inserts updates).2 ≠ none) :
    (ApplyTemplate parsed inserts updates).1 = "" := by
  cases parsed with
  | error e => simp [ApplyTemplate]
  | ok tmpl =>
    unfold ApplyTemplate at h ⊢
    simp only at h ⊢
    split
    · rfl
    · rename_i heq
      simp [heq] at h

/-- Claim C16: when `GenerateInserts`, `GenerateUpdates` or `ApplyTemplate`
returns an error, the text it returns is empty; when the seed source cannot
be parsed or read, `toYaml` and `appendFromFile` return the mapping as it
was. -/
theorem C16_no_partial_output (defaultData : Except String SeedData) (custom : String)
    (file : Source SeedData) (visit : SeedData → List (String × List String))
    (cwd : Except String String) (config : String) (yamlFile : Source YAMLMapping)
    (formatter : Item → String) (parsed : Except String Template) (inserts updates : String)
    (err : String) (data : SeedData) :
    ((GenerateInserts defaultData custom file visit).2 ≠ none →
      (GenerateInserts defaultData custom file visit).1 = "")
    ∧ ((GenerateUpdates cwd config yamlFile formatter).2 ≠ none →
      (GenerateUpdates cwd config yamlFile formatter).1 = "")
    ∧ ((ApplyTemplate parsed inserts updates).2 ≠ none →
      (ApplyTemplate parsed inserts updates).1 = "")
    ∧ toYaml (.error err) data = (data, some err)
    ∧ appendFromFile (.malformed err) data = (data, some err)
    ∧ appendFromFile (.unreadable err) data = (data, some err) :=
  ⟨generateInserts_error defaultData custom file visit,
    generateUpdates_error cwd config yamlFile formatter,
    applyTemplate_error parsed inserts updates, rfl, rfl, rfl⟩

/-- Witness of C16: a custom file that does not parse, a mapping file that
cannot be read and a template whose execution fails after writing some
text. -/
theorem C16_no_partial_output_witness :
    GenerateInserts (.ok [("words", ["cat"])]) "custom.yaml" (.malformed "line 1") id
      = ("", some "error reading custom YAML file custom.yaml: line 1")
    ∧ GenerateUpdates (.ok "/work") "map.yaml" (.unreadable "no such file") Postgres.Format
      = ("", some "error reading mapping file map.yaml: error reading YAML file: no such file")
    ∧ ApplyTemplate (.ok ⟨fun inserts _ => (inserts, some "no field Updates")⟩) "insert;" "update;"
      = ("", some "error executing template: no field Updates")
    ∧ (GenerateInserts (.ok [("words", ["cat"])]) "custom.yaml" (.malformed "line 1") id).1 = ""
    ∧ (GenerateUpdates (.ok "/work") "map.yaml" (.unreadable "no such file")
        Postgres.Format).1 = ""
    ∧ (ApplyTemplate (.ok ⟨fun inserts _ => (inserts, some "no field Updates")⟩)
        "insert;" "update;").1 = "" :=
  ⟨rfl, rfl, rfl,
    (C16_no_partial_output (.ok [("words", ["cat"])]) "custom.yaml" (.malformed "line 1") id
      (.ok "/work") "map.yaml" (.unreadable "no such file") Postgres.Format
      (.ok ⟨fun inserts _ => (inserts, some "no field Updates")⟩) "insert;" "update;" "" []).1
      (by decide),
    (C16_no_partial_output (.ok [("words", ["cat"])]) "custom.yaml" (.malformed "line 1") id
      (.ok "/work") "map.yaml" (.unreadable "no such file") Postgres.Format
      (.ok ⟨fun inserts _ => (inserts, some "no field Updates")⟩) "insert;" "update;" "" []).2.1
      (by decide),
    (C16_no_partial_output (.ok [("words", ["cat"])]) "custom.yaml" (.malformed "line 1") id
      (.ok "/work") "map.yaml" (.unreadable "no such file") Postgres.Format
      (.ok ⟨fun inserts _ => (inserts, some "no field Updates")⟩) "insert;" "update;" "" []).2.2.1
      (by decide)⟩

/-! ## The claims on escaping and on the statements -/

theorem replaceAllAux_unescape (cs : List Char) :
    replaceAllAux [quote, quote] [quote] 0 (doubleQuotes cs) = cs := by
  induction cs with
  | nil => rfl
  | cons c rest ih =>
    have hcons : doubleQuotes (c :: rest) =
        (if c = quote then [quote, quote] else [c]) ++ doubleQuotes rest := by
      simp [doubleQuotes]
    rw [hcons]
    by_cases h : c = quote
    · subst h
      simp [replaceAllAux, List.isPrefixOf, ih]
    · have h2 : ¬ quote = c := fun e => h e.symm
      simp [replaceAllAux, List.isPrefixOf, ih, h, h2]

theorem unescaped_escaped (value : String) :
    unescapedValue (GenerateInserts.escapedValue value) = value := by
  apply String.ext
  show replaceAllAux [quote, quote] [quote] 0 (GenerateInserts.escapedValue value).data = _
  rw [escapedValue_data, replaceAllAux_unescape]

theorem quoteRunsAux_even (cs : List Char) (run : Nat) (hrun : run % 2 = 0) :
    ∀ n ∈ quoteRunsAux run (doubleQuotes cs), n % 2 = 0 := by
  induction cs generalizing run with
  | nil =>
    intro n hn
    simp only [doubleQuotes, List.flatMap_nil, quoteRunsAux] at hn
    split at hn
    · simp at hn
    · simp only [List.mem_singleton] at hn
      rw [hn]; exact hrun
  | cons c rest ih =>
    have hcons : doubleQuotes (c :: rest) =
        (if c = quote then [quote, quote] else [c]) ++ doubleQuotes rest := by
      simp [doubleQuotes]
    rw [hcons]
    by_cases h : c = quote
    · subst h
      simp only [if_true, List.cons_append, List.nil_append, quoteRunsAux]
      exact ih (run + 1 + 1) (by omega)
    · simp only [h, if_false, List.cons_append, List.nil_append, quoteRunsAux]
      intro n hn
      rcases List.mem_append.mp hn with hn | hn
      · split at hn
        · simp at hn
        · simp only [List.mem_singleton] at hn
          rw [hn]; exact hrun
      · exact ih 0 rfl n hn

/-- Claim C17: every maximal run of single quotes of the escaped value has
even length, replacing each pair of single quotes of the escaped value by one
gives the value back, and so two values with the same escaped text are the
same value. -/
theorem C17_escaping_lossless (value other : String) :
    (∀ n ∈ quoteRuns (GenerateInserts.escapedValue value), Even n)
    ∧ unescapedValue (GenerateInserts.escapedValue value) = value
    ∧ (GenerateInserts.escapedValue value = GenerateInserts.escapedValue other → value = other)
    ∧ quoteRuns (GenerateInserts.escapedValue "a'b''c'''") = [2, 4, 6]
    ∧ unescapedValue (GenerateInserts.escapedValue "a'b''c'''") = "a'b''c'''" := by
  refine ⟨?_, unescaped_escaped value, ?_, by decide, by decide⟩
  · intro n hn
    rw [Nat.even_iff]
    unfold quoteRuns at hn
    rw [escapedValue_data] at hn
    exact quoteRunsAux_even value.data 0 rfl n hn
  · intro h
    rw [← unescaped_escaped value, ← unescaped_escaped other, h]

/-- Witness of C17: the values it's and its have different escaped texts. -/
theorem C17_escaping_lossless_witness :
    GenerateInserts.escapedValue "it's" = "it''s"
    ∧ GenerateInserts.escapedValue "it's" ≠ GenerateInserts.escapedValue "its" :=
  ⟨rfl, fun h => absurd ((C17_escaping_lossless "it's" "its").2.2.1 h) (by decide)⟩

end Gobfu
